import Mathlib

/-!
Shallow embedding of `funpay_scrapper/lots.py` (class `Lots`).

The HTML document handled by BeautifulSoup is modelled as a tree of
element and text nodes (`Node`); `self.data` is `Option Node`, with
`none` standing for `self.data is None` (parsing `None` raises, and the
surrounding `try/except` turns that into an empty result).  Python
exceptions are modelled with `Except PyErr`.
-/

/-- Python exception values raised by the code under study. -/
inductive PyErr where
  | exception (msg : String)
  | valueError (msg : String)
  | typeError (msg : String)
  | attributeError (msg : String)
deriving Repr, DecidableEq

/-- Characters matched by the regex class backslash-s (and stripped by
`str.strip()`) for the ASCII range handled here. -/
def isPySpace (c : Char) : Bool :=
  c == ' ' || c == '\t' || c == '\n' || c == '\r' || c == '\x0b' || c == '\x0c'

/-- One pass of the regex substitution in `clean_text`: every maximal run
of whitespace characters is replaced by a single space. -/
def collapse : List Char → List Char
  | [] => []
  | [c] => if isPySpace c then [' '] else [c]
  | c :: d :: rest =>
    if isPySpace c then
      if isPySpace d then collapse (d :: rest)
      else ' ' :: collapse (d :: rest)
    else c :: collapse (d :: rest)

/-- `str.strip()` from the left: drop leading whitespace. -/
def lstripL (l : List Char) : List Char := l.dropWhile isPySpace

/-- `str.strip()` from the right: drop trailing whitespace. -/
def rstripL (l : List Char) : List Char := (lstripL l.reverse).reverse

/-- `str.strip()`: drop whitespace on both ends. -/
def pyStripL (l : List Char) : List Char := rstripL (lstripL l)

/-- `Lots.clean_text`: collapse whitespace runs to a single space, then strip. -/
def clean_text (text : String) : String := String.mk (pyStripL (collapse text.data))

/-- Does `hay` start with `needle`? (helper for the Python `in` operator). -/
def startsWithL : List Char → List Char → Bool
  | [], _ => true
  | _ :: _, [] => false
  | c :: cs, d :: ds => c == d && startsWithL cs ds

/-- Substring occurrence on character lists (helper for Python `in`). -/
def hasSubL (needle : List Char) : List Char → Bool
  | [] => needle.isEmpty
  | c :: t => startsWithL needle (c :: t) || hasSubL needle t

/-- The Python expression `needle in hay` on strings. -/
def pyIn (needle hay : String) : Bool := hasSubL needle.data hay.data

/-- A parsed DOM node: either a bare text node or an element with a tag
name, the raw `class` attribute string, the remaining attributes, and
child nodes. -/
inductive Node where
  | textNode (s : String)
  | elem (tag : String) (classAttr : String) (attrs : List (String × String)) (children : List Node)

mutual
/-- BeautifulSoup `.text`: concatenation of all descendant strings in
document order. -/
def nodeText : Node → String
  | .textNode s => s
  | .elem _ _ _ cs => textList cs
/-- `.text` of a list of sibling nodes. -/
def textList : List Node → String
  | [] => ""
  | n :: ns => nodeText n ++ textList ns
end

mutual
/-- All descendants of a node in document (pre-) order, the node itself
excluded, as BeautifulSoup `find`/`find_all` traverse them. -/
def descendants : Node → List Node
  | .textNode _ => []
  | .elem _ _ _ cs => descList cs
/-- Descendants of a list of sibling nodes, each node before its own
descendants. -/
def descList : List Node → List Node
  | [] => []
  | n :: ns => n :: descendants n ++ descList ns
end

/-- Split a character list on every space, keeping empty chunks (the
class attribute split into individual class names). -/
def splitOnSpaceL : List Char → List (List Char)
  | [] => [[]]
  | c :: t =>
    let r := splitOnSpaceL t
    if c == ' ' then [] :: r
    else
      match r with
      | [] => [[c]]
      | w :: ws => (c :: w) :: ws

/-- BeautifulSoup `class_` matching: a query with a space must equal the
whole class attribute; a single-class query matches any one of the
element classes. -/
def classMatch (query classAttr : String) : Bool :=
  if query.data.contains ' ' then query == classAttr
  else (splitOnSpaceL classAttr.data).contains query.data

/-- Does a node match `find(tag, class_=query)`? -/
def matchesQ (tag query : String) : Node → Bool
  | .textNode _ => false
  | .elem t ca _ _ => t == tag && classMatch query ca

/-- BeautifulSoup `node.find(tag, class_=query)`: first matching
descendant in document order, `none` when there is no match. -/
def findElem (tag query : String) (n : Node) : Option Node :=
  (descendants n).find? (matchesQ tag query)

/-- BeautifulSoup `node.find_all(tag, class_=query)`: all matching
descendants in document order. -/
def findAll (tag query : String) (n : Node) : List Node :=
  (descendants n).filter (matchesQ tag query)

/-- Raw attribute lookup on a node (`tag.attrs.get(key)`). -/
def getAttr (n : Node) (key : String) : Option String :=
  match n with
  | .textNode _ => none
  | .elem _ _ attrs _ => attrs.lookup key

/-- `tag.get(key, default)`: attribute lookup with a default. -/
def getAttrD (n : Node) (key dflt : String) : String :=
  match getAttr n key with
  | some v => v
  | none => dflt

/-- Python list slice `l[:m]`: for `m ≥ 0` the first `m` elements, for
`m < 0` everything but the last `|m|` elements. -/
def pySliceTo (l : List α) (m : Int) : List α :=
  if m < 0 then
    if (l.length : Int) + m ≤ 0 then [] else l.take ((l.length : Int) + m).toNat
  else l.take m.toNat

/-- One extracted lot, as the dictionary appended by `lots_links`. -/
structure LotRecord where
  href : String
  info : String
  cost : String
  server : String
deriving Repr, DecidableEq

/-- The `href` field of the loop body: `lot.get("href", "Unknown")`. -/
def hrefOf (lot : Node) : String := getAttrD lot "href" "Unknown"

/-- The `info` field: cleaned text of the `tc-desc-text` div, else `"Unknown"`. -/
def infoOf (lot : Node) : String :=
  match findElem "div" "tc-desc-text" lot with
  | some e => clean_text (nodeText e)
  | none => "Unknown"

/-- The `cost` field: cleaned text of the `tc-price` div, else `"Unknown"`. -/
def costOf (lot : Node) : String :=
  match findElem "div" "tc-price" lot with
  | some e => clean_text (nodeText e)
  | none => "Unknown"

/-- The `server` field: cleaned text of the `tc-server hidden-xs` div,
else `"Unknown"`. -/
def serverOf (lot : Node) : String :=
  match findElem "div" "tc-server hidden-xs" lot with
  | some e => clean_text (nodeText e)
  | none => "Unknown"

/-- The dictionary appended for one lot in the `lots_links` loop. -/
def mkRecord (lot : Node) : LotRecord :=
  ⟨hrefOf lot, infoOf lot, costOf lot, serverOf lot⟩

/-- The loop guard: `"(RU)" not in server and not check_for_pin_element`. -/
def keepLot (lot : Node) : Bool :=
  !pyIn "(RU)" (serverOf lot) && !(findElem "div" "sc-offer-icons" lot).isSome

/-- The accumulation loop of `lots_links`: append the record of every
candidate that passes the guard. -/
def lotsLoop (lots : List Node) : List LotRecord :=
  List.foldl (fun acc lot => if keepLot lot then acc ++ [mkRecord lot] else acc) [] lots

/-- Body of `lots_links` inside the `try`: parse `self.data` (parsing
`None` raises `TypeError`), locate the `showcase-table` container (a
found tag is always truthy, so `if lots:` is a presence test), slice the
`tc-item` candidates to `max_limit` and run the loop. -/
def lots_links_body (data : Option Node) (max_limit : Int) : Except PyErr (List LotRecord) :=
  match data with
  | none => Except.error (PyErr.typeError "object of type NoneType cannot be parsed")
  | some soup =>
    match findElem "div" "showcase-table" soup with
    | some lots => Except.ok (lotsLoop (pySliceTo (findAll "a" "tc-item" lots) max_limit))
    | none => Except.ok []

/-- `Lots.lots_links`: the `try/except` converts any raised exception
into the empty list. -/
def lots_links (data : Option Node) (max_limit : Int) : List LotRecord :=
  match lots_links_body data max_limit with
  | Except.ok r => r
  | Except.error _ => []

/-- The full candidate list before slicing: the `tc-item` links of the
`showcase-table` container, empty when the container (or the document)
is absent. -/
def candidatesOf (data : Option Node) : List Node :=
  match data with
  | none => []
  | some soup =>
    match findElem "div" "showcase-table" soup with
    | some lots => findAll "a" "tc-item" lots
    | none => []

/-- The mutable attributes of a `Lots` object. -/
structure LotsState where
  id : String
  url : String
  data : Option String
deriving Repr, DecidableEq

/-- An HTTP response as `requests.get` returns it. -/
structure HTTPResponse where
  status_code : Nat
  text : String
deriving Repr, DecidableEq

/-- Python `a or b` on strings: `b` when `a` is empty (falsy), else `a`. -/
def pyOrStr (a b : String) : String := if a == "" then b else a

/-- The `url` attribute set by `Lots.__init__`: an `or` of two f-string
templates, decided by string truthiness. -/
def initUrl (ID : Int) : String :=
  pyOrStr ("https://funpay.com/en/lots/" ++ toString ID ++ "/")
    ("https://funpay.com/chips/" ++ toString ID ++ "/")

/-- The attribute state right after `Lots.__init__` assigns `id`, `url`
and `data = None` (before the constructor's fetch call). -/
def initLots (ID : Int) : LotsState :=
  ⟨toString ID, initUrl ID, none⟩

/-- The f-string of the `Exception` raised by `__get_data__` on a
non-200 status. -/
def fetchErrMsg (id : String) (status : Nat) : String :=
  "Error getting data for ID: " ++ id ++ ". Status code: " ++ toString status

/-- `Lots.__get_data__`, with the response of `requests.get(self.url)`
passed in explicitly: when `self.data` is populated it is returned
unchanged; otherwise status 200 stores and returns the body, and any
other status raises an `Exception` built from the id and status code. -/
def get_data (self : LotsState) (resp : HTTPResponse) : Except PyErr (LotsState × String) :=
  match self.data with
  | some d => Except.ok (self, d)
  | none =>
    if resp.status_code == 200 then
      Except.ok (LotsState.mk self.id self.url (some resp.text), resp.text)
    else
      Except.error (PyErr.exception (fetchErrMsg self.id resp.status_code))

/-- The message of the `AttributeError` raised by `lots_links.items()`:
the value bound to `lots_links` inside `sort_lots` is a Python list, and
lists have no `items` method. -/
def itemsErrMsg : String := "\x27list\x27 object has no attribute \x27items\x27"

/-- Python attribute access `l.items()` on a list value: always raises
`AttributeError`. -/
def listItems (_l : List LotRecord) : Except PyErr (List (String × LotRecord)) :=
  Except.error (PyErr.attributeError itemsErrMsg)

/-- The fixed message of the `ValueError` raised for an invalid
`sort_by` token. -/
def invalidSortMsg : String :=
  "Invalid sort_by parameter. Only \x27lowest\x27 and \x27highest\x27 are accepted."

/-- `Lots.sort_lots`: re-extracts with the default limit 20, then for
`"lowest"`/`"highest"` evaluates `lots_links.items()` — which raises
`AttributeError` before `sorted`, `float` or `dict` ever run (that
unreachable continuation is represented by `pure []`) — and for any
other token raises the fixed `ValueError`. -/
def sort_lots (data : Option Node) (sort_by : String) : Except PyErr (List (String × LotRecord)) :=
  let ll := lots_links data 20
  if sort_by == "lowest" then do
    let _items ← listItems ll
    pure []
  else if sort_by == "highest" then do
    let _items ← listItems ll
    pure []
  else
    Except.error (PyErr.valueError invalidSortMsg)

/-- Element-node helper for the concrete test documents. -/
def mkDiv (cls : String) (cs : List Node) : Node := Node.elem "div" cls [] cs

/-- Anchor-node helper for the concrete test documents. -/
def mkA (cls : String) (attrs : List (String × String)) (cs : List Node) : Node :=
  Node.elem "a" cls attrs cs

/-- Document-root helper: BeautifulSoup searches start at the document
object, whose top-level elements are ordinary descendants. -/
def mkRoot (cs : List Node) : Node := Node.elem "[document]" "" [] cs

/-- Example candidate: unpinned lot, price `10 $`, region `EU`. -/
def exLotEU : Node :=
  mkA "tc-item" [("href", "https://funpay.com/en/lots/offer?id=1")]
    [ mkDiv "tc-desc-text" [Node.textNode "  Good \t account "]
    , mkDiv "tc-price" [Node.textNode " 10 $ "]
    , mkDiv "tc-server hidden-xs" [Node.textNode "EU"] ]

/-- Example candidate: unpinned lot whose region text contains `(RU)`. -/
def exLotRU : Node :=
  mkA "tc-item" [("href", "https://funpay.com/en/lots/offer?id=2")]
    [ mkDiv "tc-desc-text" [Node.textNode "Cheap account"]
    , mkDiv "tc-price" [Node.textNode "5 $"]
    , mkDiv "tc-server hidden-xs" [Node.textNode "(RU) Moscow"] ]

/-- Example candidate: pinned lot (has an `sc-offer-icons` descendant). -/
def exLotPinned : Node :=
  mkA "tc-item" [("href", "https://funpay.com/en/lots/offer?id=3")]
    [ mkDiv "tc-desc-text" [Node.textNode "Promoted account"]
    , mkDiv "tc-price" [Node.textNode "20 $"]
    , mkDiv "tc-server hidden-xs" [Node.textNode "EU"]
    , mkDiv "sc-offer-icons" [] ]

/-- Example page from the spec end-to-end scenario: three candidates of
which only the first survives the filters. -/
def exDoc : Node := mkRoot [mkDiv "showcase-table" [exLotEU, exLotRU, exLotPinned]]

/-- Page whose first candidate is filtered out while a qualifying
candidate sits beyond any truncation point `1`. -/
def exDocTrunc : Node := mkRoot [mkDiv "showcase-table" [exLotRU, exLotEU]]

/-- A candidate with no attributes and no children: every sub-field is
missing. -/
def exLotBare : Node := mkA "tc-item" [] []

/-- Page holding only the bare candidate. -/
def exDocBare : Node := mkRoot [mkDiv "showcase-table" [exLotBare]]

/-- A qualifying candidate with only an href, for the five-lot page. -/
def exLotN (k : Nat) : Node := mkA "tc-item" [("href", toString k)] []

/-- Page with five qualifying candidates, for the negative-limit claim. -/
def exDoc5 : Node :=
  mkRoot [mkDiv "showcase-table" [exLotN 1, exLotN 2, exLotN 3, exLotN 4, exLotN 5]]

/-- Empty page: no `showcase-table` container at all. -/
def exDocEmpty : Node := mkRoot []

/-- Every whitespace character of the list is a plain space (the shape
`collapse` guarantees). -/
def spacesOK (l : List Char) : Bool := l.all (fun c => !isPySpace c || c == ' ')

/-- No two adjacent characters of the list are both whitespace (the
shape `collapse` guarantees). -/
def noAdj : List Char → Bool
  | [] => true
  | [_] => true
  | c :: d :: rest => !(isPySpace c && isPySpace d) && noAdj (d :: rest)

/-- The list is empty or starts with a non-whitespace character. -/
def headOK : List Char → Bool
  | [] => true
  | c :: _ => !isPySpace c

/-- Does a `sort_lots` outcome consist of a raised `ValueError`? -/
def isValueError : Except PyErr (List (String × LotRecord)) → Bool
  | Except.error (PyErr.valueError _) => true
  | _ => false

/-! ## Helper lemmas -/

theorem lotsLoop_aux (lots : List Node) : ∀ acc : List LotRecord,
    List.foldl (fun acc lot => if keepLot lot then acc ++ [mkRecord lot] else acc) acc lots
      = acc ++ (lots.filter keepLot).map mkRecord := by
  induction lots with
  | nil => intro acc; simp
  | cons lot rest ih =>
    intro acc
    rw [List.foldl_cons]
    by_cases h : keepLot lot = true
    · rw [if_pos h, ih]
      simp [List.filter_cons, h]
    · rw [if_neg h, ih]
      simp [List.filter_cons, h]

theorem lotsLoop_eq (lots : List Node) :
    lotsLoop lots = (lots.filter keepLot).map mkRecord := by
  simpa [lotsLoop] using lotsLoop_aux lots []

theorem pySliceTo_nil (m : Int) : pySliceTo ([] : List Node) m = [] := by
  unfold pySliceTo
  by_cases h : m < 0
  · rw [if_pos h]
    by_cases h2 : ((List.length ([] : List Node) : Int) + m ≤ 0)
    · rw [if_pos h2]
    · rw [if_neg h2]; exact List.take_nil
  · rw [if_neg h]; exact List.take_nil

theorem pySliceTo_of_nonneg (l : List Node) (m : Int) (h : 0 ≤ m) :
    pySliceTo l m = l.take m.toNat := by
  unfold pySliceTo
  rw [if_neg (by omega)]

theorem pySliceTo_of_neg (l : List Node) (m : Int) (h : m < 0) :
    pySliceTo l m = l.take (l.length - (-m).toNat) := by
  unfold pySliceTo
  rw [if_pos h]
  by_cases h2 : ((l.length : Int) + m ≤ 0)
  · rw [if_pos h2]
    have h0 : l.length - (-m).toNat = 0 := by omega
    rw [h0, List.take_zero]
  · rw [if_neg h2]
    congr 1
    omega

theorem mem_of_mem_pySliceTo {l : List Node} {m : Int} {a : Node}
    (h : a ∈ pySliceTo l m) : a ∈ l := by
  unfold pySliceTo at h
  by_cases h1 : m < 0
  · rw [if_pos h1] at h
    by_cases h2 : ((l.length : Int) + m ≤ 0)
    · rw [if_pos h2] at h; exact absurd h (List.not_mem_nil a)
    · rw [if_neg h2] at h; exact List.take_subset _ _ h
  · rw [if_neg h1] at h; exact List.take_subset _ _ h

theorem lots_links_eq (data : Option Node) (m : Int) :
    lots_links data m = ((pySliceTo (candidatesOf data) m).filter keepLot).map mkRecord := by
  cases data with
  | none => simp [lots_links, lots_links_body, candidatesOf, pySliceTo_nil]
  | some soup =>
    cases hf : findElem "div" "showcase-table" soup with
    | none => simp [lots_links, lots_links_body, candidatesOf, hf, pySliceTo_nil]
    | some lots => simp [lots_links, lots_links_body, candidatesOf, hf, lotsLoop_eq]

theorem sort_lots_lowest_eq (data : Option Node) :
    sort_lots data "lowest" = Except.error (PyErr.attributeError itemsErrMsg) := rfl

theorem sort_lots_highest_eq (data : Option Node) :
    sort_lots data "highest" = Except.error (PyErr.attributeError itemsErrMsg) := rfl

theorem startsWithL_append_self (b c : List Char) : startsWithL b (b ++ c) = true := by
  induction b with
  | nil => rfl
  | cons x xs ih => simp [startsWithL, ih]

theorem hasSubL_of_startsWithL {b h : List Char} (hs : startsWithL b h = true) :
    hasSubL b h = true := by
  cases h with
  | nil =>
    cases b with
    | nil => rfl
    | cons x xs => simp [startsWithL] at hs
  | cons c t => simp [hasSubL, hs]

theorem hasSubL_append_left (a : List Char) {b t : List Char} (h : hasSubL b t = true) :
    hasSubL b (a ++ t) = true := by
  induction a with
  | nil => simpa using h
  | cons x xs ih => simp [hasSubL, ih]

theorem hasSubL_self_append (b c : List Char) : hasSubL b (b ++ c) = true :=
  hasSubL_of_startsWithL (startsWithL_append_self b c)

/-! ## Claim theorems -/

/-- C7: for every numeric identifier, `__init__` sets `url` to the
`en/lots` template with the stringified identifier substituted, and the
alternate `chips` template is never produced: the Python `or` always
short-circuits on the non-empty first f-string. -/
theorem c7_url_always_en_lots_template (ID : Int) :
    initUrl ID = "https://funpay.com/en/lots/" ++ toString ID ++ "/" ∧
    initUrl ID ≠ "https://funpay.com/chips/" ++ toString ID ++ "/" := by
  have hne : ("https://funpay.com/en/lots/" ++ toString ID ++ "/") ≠ "" := by
    intro h
    have hl := congrArg String.length h
    rw [String.length_append, String.length_append] at hl
    have e1 : ("https://funpay.com/en/lots/" : String).length = 27 := by decide
    have e2 : ("/" : String).length = 1 := by decide
    have e3 : ("" : String).length = 0 := by decide
    rw [e1, e2, e3] at hl
    omega
  have heq : initUrl ID = "https://funpay.com/en/lots/" ++ toString ID ++ "/" := by
    unfold initUrl pyOrStr
    rw [if_neg (by simp only [beq_iff_eq]; exact hne)]
  refine ⟨heq, ?_⟩
  rw [heq]
  intro h
  have hl := congrArg String.length h
  rw [String.length_append, String.length_append, String.length_append,
    String.length_append] at hl
  have e1 : ("https://funpay.com/en/lots/" : String).length = 27 := by decide
  have e2 : ("https://funpay.com/chips/" : String).length = 25 := by decide
  have e3 : ("/" : String).length = 1 := by decide
  rw [e1, e2, e3] at hl
  omega

/-- C4: extraction never propagates an error: an unparseable stored
document (the `BeautifulSoup(None, ...)` `TypeError`) is caught by the
`try/except` and yields `[]`, and a parsed document with no
`showcase-table` container also yields `[]` rather than an error. -/
theorem c4_extraction_never_errors :
    (∀ m : Int, lots_links none m = []) ∧
    (∀ (d : Node) (m : Int), findElem "div" "showcase-table" d = none →
      lots_links (some d) m = []) := by
  constructor
  · intro m; rfl
  · intro d m h
    simp [lots_links, lots_links_body, h]

/-- Witness for C4 at concrete inputs: the absent document and an empty
page both extract to the empty list. -/
theorem c4_extraction_never_errors_witness :
    lots_links none 20 = [] ∧
    findElem "div" "showcase-table" exDocEmpty = none ∧
    lots_links (some exDocEmpty) 20 = [] :=
  ⟨c4_extraction_never_errors.1 20, rfl,
    c4_extraction_never_errors.2 exDocEmpty 20 rfl⟩

/-- C3 (code bug): `sort_lots` never produces any sorted output.  Its
docstring promises the lots sorted by cost, but the value it sorts is
the list returned by `lots_links`, and the attribute access
`lots_links.items` raises `AttributeError` for both accepted tokens
before any comparison happens. -/
theorem c3_sort_lots_always_raises :
    sort_lots (some exDoc) "lowest" = Except.error (PyErr.attributeError itemsErrMsg) ∧
    sort_lots (some exDoc) "highest" = Except.error (PyErr.attributeError itemsErrMsg) ∧
    (∀ (data : Option Node),
      sort_lots data "lowest" = Except.error (PyErr.attributeError itemsErrMsg) ∧
      sort_lots data "highest" = Except.error (PyErr.attributeError itemsErrMsg)) :=
  ⟨rfl, rfl, fun data => ⟨sort_lots_lowest_eq data, sort_lots_highest_eq data⟩⟩

/-- C6 counterexample: the claim says the `ValueError` for an invalid
token names the received value, but at token `"foo"` the raised message
is the fixed text, which does not contain `"foo"`. -/
theorem c6_error_does_not_name_value :
    sort_lots none "foo" = Except.error (PyErr.valueError invalidSortMsg) ∧
    pyIn "foo" invalidSortMsg = false :=
  ⟨rfl, by decide⟩

/-- C6 (amended): for every token other than `"lowest"`/`"highest"`,
`sort_lots` raises a `ValueError` with a fixed message that does not
name the received value, and it never raises a `ValueError` for the two
accepted tokens. -/
theorem c6_invalid_sort_token_value_error (data : Option Node) (s : String)
    (h1 : s ≠ "lowest") (h2 : s ≠ "highest") :
    sort_lots data s = Except.error (PyErr.valueError invalidSortMsg) ∧
    isValueError (sort_lots data "lowest") = false ∧
    isValueError (sort_lots data "highest") = false := by
  refine ⟨?_, ?_, ?_⟩
  · unfold sort_lots
    rw [if_neg (by simp only [beq_iff_eq]; exact h1),
      if_neg (by simp only [beq_iff_eq]; exact h2)]
  · rw [sort_lots_lowest_eq]; rfl
  · rw [sort_lots_highest_eq]; rfl

/-- Witness for C6 at the concrete invalid token `"foo"`. -/
theorem c6_invalid_sort_token_value_error_witness :
    sort_lots none "foo" = Except.error (PyErr.valueError invalidSortMsg) ∧
    isValueError (sort_lots none "lowest") = false ∧
    isValueError (sort_lots none "highest") = false :=
  c6_invalid_sort_token_value_error none "foo" (by decide) (by decide)

/-- C5: for every response to `__get_data__` issued while no document is
stored yet, status 200 stores the body and returns it, while any other
status raises an `Exception` whose message contains both the identifier
and the received status code, with no document stored (the error result
carries no updated state). -/
theorem c5_fetch_stores_or_fails (self : LotsState) (resp : HTTPResponse)
    (hdata : self.data = none) :
    (resp.status_code = 200 →
      get_data self resp
        = Except.ok (LotsState.mk self.id self.url (some resp.text), resp.text)) ∧
    (resp.status_code ≠ 200 →
      get_data self resp
          = Except.error (PyErr.exception (fetchErrMsg self.id resp.status_code)) ∧
        pyIn self.id (fetchErrMsg self.id resp.status_code) = true ∧
        pyIn (toString resp.status_code) (fetchErrMsg self.id resp.status_code) = true) := by
  constructor
  · intro h200
    unfold get_data
    rw [hdata]
    rw [if_pos (by simp only [beq_iff_eq]; exact h200)]
  · intro hne
    refine ⟨?_, ?_, ?_⟩
    · unfold get_data
      rw [hdata]
      rw [if_neg (by simp only [beq_iff_eq]; exact hne)]
    · unfold pyIn fetchErrMsg
      rw [String.data_append, String.data_append, String.data_append]
      rw [List.append_assoc, List.append_assoc]
      exact hasSubL_append_left _ (hasSubL_self_append _ _)
    · unfold pyIn fetchErrMsg
      rw [String.data_append, String.data_append, String.data_append]
      rw [List.append_assoc, List.append_assoc]
      exact hasSubL_append_left _ (hasSubL_append_left _
        (hasSubL_append_left _ (by simpa using hasSubL_self_append (toString resp.status_code).data [])))

/-- Witness for C5 at concrete inputs: a 404 response raises with both
id and status in the message, and a 200 response stores the body. -/
theorem c5_fetch_stores_or_fails_witness :
    (get_data (LotsState.mk "123" "u" none) (HTTPResponse.mk 404 "nf")
        = Except.error (PyErr.exception (fetchErrMsg "123" 404)) ∧
      pyIn "123" (fetchErrMsg "123" 404) = true ∧
      pyIn (toString (404 : Nat)) (fetchErrMsg "123" 404) = true) ∧
    get_data (LotsState.mk "123" "u" none) (HTTPResponse.mk 200 "body")
      = Except.ok (LotsState.mk "123" "u" (some "body"), "body") :=
  ⟨(c5_fetch_stores_or_fails (LotsState.mk "123" "u" none)
      (HTTPResponse.mk 404 "nf") rfl).2 (by decide),
    (c5_fetch_stores_or_fails (LotsState.mk "123" "u" none)
      (HTTPResponse.mk 200 "body") rfl).1 rfl⟩

/-- C1: no record returned by `lots_links` has region/server text
containing `"(RU)"`, and every returned record comes from a candidate
node with no `sc-offer-icons` descendant. -/
theorem c1_no_ru_no_pinned (data : Option Node) (m : Int) (r : LotRecord)
    (hr : r ∈ lots_links data m) :
    pyIn "(RU)" r.server = false ∧
    ∃ lot ∈ candidatesOf data, mkRecord lot = r ∧
      findElem "div" "sc-offer-icons" lot = none := by
  rw [lots_links_eq] at hr
  obtain ⟨lot, hlot, hmk⟩ := List.mem_map.mp hr
  obtain ⟨hmem, hkeep⟩ := List.mem_filter.mp hlot
  have hmem' : lot ∈ candidatesOf data := mem_of_mem_pySliceTo hmem
  unfold keepLot at hkeep
  rw [Bool.and_eq_true] at hkeep
  obtain ⟨hru, hpin⟩ := hkeep
  have hserver : r.server = serverOf lot := by rw [← hmk]; rfl
  constructor
  · rw [hserver]
    simpa using hru
  · refine ⟨lot, hmem', hmk, ?_⟩
    cases hfind : findElem "div" "sc-offer-icons" lot with
    | none => rfl
    | some e => rw [hfind] at hpin; simp at hpin

/-- Witness for C1 at the spec's example page: the surviving record of
`exDoc` has no `(RU)` region and comes from an unpinned candidate. -/
theorem c1_no_ru_no_pinned_witness :
    pyIn "(RU)" (mkRecord exLotEU).server = false ∧
    ∃ lot ∈ candidatesOf (some exDoc), mkRecord lot = mkRecord exLotEU ∧
      findElem "div" "sc-offer-icons" lot = none :=
  c1_no_ru_no_pinned (some exDoc) 10 (mkRecord exLotEU)
    (by rw [show lots_links (some exDoc) 10 = [mkRecord exLotEU] from rfl]
        exact List.mem_singleton_self _)

/-- C2: for every `maxCount ≥ 0`, the extraction result is a filtered
subsequence of the records of the first `maxCount` candidates in
document order, so its length never exceeds `maxCount`; moreover
(filtering happens after truncation) there is a page and a bound where
the result is shorter than the bound although a qualifying candidate
sits beyond the truncation point. -/
theorem c2_truncate_then_filter (data : Option Node) (m : Int) (hm : 0 ≤ m) :
    (lots_links data m).length ≤ m.toNat ∧
    List.Sublist (lots_links data m) (((candidatesOf data).take m.toNat).map mkRecord) ∧
    (((candidatesOf (some exDocTrunc)).drop 1).any keepLot = true ∧
      (lots_links (some exDocTrunc) 1).length < 1) := by
  rw [lots_links_eq, pySliceTo_of_nonneg _ _ hm]
  refine ⟨?_, ?_, by decide, by decide⟩
  · rw [List.length_map]
    calc ((candidatesOf data).take m.toNat |>.filter keepLot).length
        ≤ ((candidatesOf data).take m.toNat).length := List.length_filter_le _ _
      _ ≤ m.toNat := by rw [List.length_take]; omega
  · exact (List.filter_sublist _).map mkRecord

/-- Witness for C2 at the spec's example page with `maxCount = 10`. -/
theorem c2_truncate_then_filter_witness :
    (lots_links (some exDoc) 10).length ≤ (10 : Int).toNat ∧
    List.Sublist (lots_links (some exDoc) 10)
      (((candidatesOf (some exDoc)).take (10 : Int).toNat).map mkRecord) ∧
    (((candidatesOf (some exDocTrunc)).drop 1).any keepLot = true ∧
      (lots_links (some exDocTrunc) 1).length < 1) :=
  c2_truncate_then_filter (some exDoc) 10 (by decide)

/-- C8: a candidate that survives the filters always contributes its
record to the result, and each of the four fields whose source
sub-element or attribute is missing holds the literal `"Unknown"`. -/
theorem c8_missing_fields_unknown (data : Option Node) (m : Int) (lot : Node)
    (hmem : lot ∈ pySliceTo (candidatesOf data) m) (hkeep : keepLot lot = true) :
    mkRecord lot ∈ lots_links data m ∧
    (getAttr lot "href" = none → (mkRecord lot).href = "Unknown") ∧
    (findElem "div" "tc-desc-text" lot = none → (mkRecord lot).info = "Unknown") ∧
    (findElem "div" "tc-price" lot = none → (mkRecord lot).cost = "Unknown") ∧
    (findElem "div" "tc-server hidden-xs" lot = none →
      (mkRecord lot).server = "Unknown") := by
  refine ⟨?_, ?_, ?_, ?_, ?_⟩
  · rw [lots_links_eq]
    exact List.mem_map.mpr ⟨lot, List.mem_filter.mpr ⟨hmem, hkeep⟩, rfl⟩
  · intro h
    show hrefOf lot = "Unknown"
    unfold hrefOf getAttrD
    rw [h]
  · intro h
    show infoOf lot = "Unknown"
    unfold infoOf
    rw [h]
  · intro h
    show costOf lot = "Unknown"
    unfold costOf
    rw [h]
  · intro h
    show serverOf lot = "Unknown"
    unfold serverOf
    rw [h]

/-- Witness for C8: the bare candidate of `exDocBare` has every
sub-field missing, is still included, and all fields are `"Unknown"`. -/
theorem c8_missing_fields_unknown_witness :
    mkRecord exLotBare ∈ lots_links (some exDocBare) 20 ∧
    (mkRecord exLotBare).href = "Unknown" ∧ (mkRecord exLotBare).info = "Unknown" ∧
    (mkRecord exLotBare).cost = "Unknown" ∧ (mkRecord exLotBare).server = "Unknown" := by
  have hmem : exLotBare ∈ pySliceTo (candidatesOf (some exDocBare)) 20 := by
    rw [show pySliceTo (candidatesOf (some exDocBare)) 20 = [exLotBare] from rfl]
    exact List.mem_singleton_self _
  have h := c8_missing_fields_unknown (some exDocBare) 20 exLotBare hmem (by decide)
  exact ⟨h.1, h.2.1 rfl, h.2.2.1 rfl, h.2.2.2.1 rfl, h.2.2.2.2 rfl⟩

/-- C10: for every negative `maxCount`, the slice `[:maxCount]` keeps
all candidates but the last `|maxCount|`, so the result is not bounded
by any count derived from `maxCount`; concretely, `maxCount = -1` on a
page with five qualifying candidates yields four records. -/
theorem c10_negative_limit_keeps_most (m : Int) (h : m < 0) (l : List Node) :
    pySliceTo l m = l.take (l.length - (-m).toNat) ∧
    (candidatesOf (some exDoc5)).length = 5 ∧
    (candidatesOf (some exDoc5)).all keepLot = true ∧
    (lots_links (some exDoc5) (-1)).length = 4 :=
  ⟨pySliceTo_of_neg l m h, by decide, by decide, by decide⟩

/-- Witness for C10 at `maxCount = -1` and the empty candidate list. -/
theorem c10_negative_limit_keeps_most_witness :
    pySliceTo ([] : List Node) (-1) = ([] : List Node).take (([] : List Node).length - ((1 : Int)).toNat) ∧
    (candidatesOf (some exDoc5)).length = 5 ∧
    (candidatesOf (some exDoc5)).all keepLot = true ∧
    (lots_links (some exDoc5) (-1)).length = 4 :=
  c10_negative_limit_keeps_most (-1) (by decide) []

/-! ## Lemmas for idempotence of `clean_text` -/

theorem spacesOK_collapse : ∀ l : List Char, spacesOK (collapse l) = true
  | [] => rfl
  | [c] => by
    by_cases h : isPySpace c = true
    · have e : collapse [c] = [' '] := by simp [collapse, h]
      rw [e]
      decide
    · have e : collapse [c] = [c] := by simp [collapse, h]
      rw [e]
      simp only [spacesOK, List.all_cons, List.all_nil, Bool.and_true]
      simp [h]
  | c :: d :: rest => by
    have ih := spacesOK_collapse (d :: rest)
    by_cases hc : isPySpace c = true
    · by_cases hd : isPySpace d = true
      · have e : collapse (c :: d :: rest) = collapse (d :: rest) := by
          simp [collapse, hc, hd]
        rw [e]
        exact ih
      · have e : collapse (c :: d :: rest) = ' ' :: collapse (d :: rest) := by
          simp [collapse, hc, hd]
        rw [e]
        simp only [spacesOK, List.all_cons] at ih ⊢
        rw [ih]
        decide
    · have e : collapse (c :: d :: rest) = c :: collapse (d :: rest) := by
        simp [collapse, hc]
      rw [e]
      simp only [spacesOK, List.all_cons] at ih ⊢
      rw [ih]
      have hc' : isPySpace c = false := by simpa using hc
      simp [hc']

theorem collapse_head_not {d : Char} (hd : isPySpace d = false) (rest : List Char) :
    ∃ t, collapse (d :: rest) = d :: t := by
  cases rest with
  | nil => exact ⟨[], by simp [collapse, hd]⟩
  | cons e rest' => exact ⟨collapse (e :: rest'), by simp [collapse, hd]⟩

theorem noAdj_collapse : ∀ l : List Char, noAdj (collapse l) = true
  | [] => rfl
  | [c] => by
    by_cases h : isPySpace c = true <;> simp [collapse, h, noAdj]
  | c :: d :: rest => by
    have ih := noAdj_collapse (d :: rest)
    by_cases hc : isPySpace c = true
    · by_cases hd : isPySpace d = true
      · simpa [collapse, hc, hd] using ih
      · have hd' : isPySpace d = false := by simpa using hd
        obtain ⟨t, ht⟩ := collapse_head_not hd' rest
        have goal_eq : collapse (c :: d :: rest) = ' ' :: collapse (d :: rest) := by
          simp [collapse, hc, hd]
        rw [goal_eq, ht]
        rw [ht] at ih
        simp [noAdj, hd']
        exact ih
    · have goal_eq : collapse (c :: d :: rest) = c :: collapse (d :: rest) := by
        simp [collapse, hc]
      rw [goal_eq]
      cases hcol : collapse (d :: rest) with
      | nil => simp [noAdj]
      | cons y t =>
        rw [hcol] at ih
        have hc' : isPySpace c = false := by simpa using hc
        simp [noAdj, hc']
        exact ih

theorem collapse_eq_self : ∀ l : List Char, spacesOK l = true → noAdj l = true → collapse l = l
  | [], _, _ => rfl
  | [c], hs, _ => by
    by_cases h : isPySpace c = true
    · have hceq : c = ' ' := by
        simp [spacesOK, List.all_cons, h] at hs
        exact hs
      subst hceq
      simp [collapse]
    · simp [collapse, h]
  | c :: d :: rest, hs, hna => by
    have hexp : noAdj (c :: d :: rest)
        = (!(isPySpace c && isPySpace d) && noAdj (d :: rest)) := rfl
    rw [hexp, Bool.and_eq_true] at hna
    have hs' : spacesOK (d :: rest) = true := by
      simp [spacesOK, List.all_cons] at hs ⊢
      exact hs.2
    have ih := collapse_eq_self (d :: rest) hs' hna.2
    by_cases hc : isPySpace c = true
    · have hd : isPySpace d = false := by
        have := hna.1
        simp [hc] at this
        exact this
      have hceq : c = ' ' := by
        simp [spacesOK, List.all_cons, hc] at hs
        exact hs.1
      subst hceq
      simp [collapse, hd]
      exact ih
    · simp [collapse, hc]
      exact ih

theorem spacesOK_append_parts {a b : List Char} (h : spacesOK (a ++ b) = true) :
    spacesOK a = true ∧ spacesOK b = true := by
  simp [spacesOK, List.all_append] at h
  simp [spacesOK]
  exact h

theorem noAdj_tail {c : Char} {l : List Char} (h : noAdj (c :: l) = true) :
    noAdj l = true := by
  cases l with
  | nil => rfl
  | cons d t =>
    have hexp : noAdj (c :: d :: t)
        = (!(isPySpace c && isPySpace d) && noAdj (d :: t)) := rfl
    rw [hexp, Bool.and_eq_true] at h
    exact h.2

theorem noAdj_append_right : ∀ (a : List Char) {b : List Char},
    noAdj (a ++ b) = true → noAdj b = true
  | [], _, h => h
  | _ :: a', _, h => noAdj_append_right a' (noAdj_tail h)

theorem noAdj_append_left : ∀ (a : List Char) {b : List Char},
    noAdj (a ++ b) = true → noAdj a = true
  | [], _, _ => rfl
  | [_], _, _ => rfl
  | c :: d :: a', b, h => by
    have hexp : noAdj ((c :: d :: a') ++ b)
        = (!(isPySpace c && isPySpace d) && noAdj ((d :: a') ++ b)) := rfl
    rw [hexp, Bool.and_eq_true] at h
    have ih := noAdj_append_left (d :: a') h.2
    have hexp2 : noAdj (c :: d :: a')
        = (!(isPySpace c && isPySpace d) && noAdj (d :: a')) := rfl
    rw [hexp2, Bool.and_eq_true]
    exact ⟨h.1, ih⟩

theorem rstripL_append (u : List Char) :
    rstripL u ++ (u.reverse.takeWhile isPySpace).reverse = u := by
  unfold rstripL lstripL
  rw [← List.reverse_append, List.takeWhile_append_dropWhile, List.reverse_reverse]

theorem spacesOK_lstrip {l : List Char} (h : spacesOK l = true) :
    spacesOK (lstripL l) = true := by
  have h2 : spacesOK (l.takeWhile isPySpace ++ l.dropWhile isPySpace) = true := by
    rw [List.takeWhile_append_dropWhile]
    exact h
  exact (spacesOK_append_parts h2).2

theorem spacesOK_rstrip {u : List Char} (h : spacesOK u = true) :
    spacesOK (rstripL u) = true := by
  have h2 : spacesOK (rstripL u ++ (u.reverse.takeWhile isPySpace).reverse) = true := by
    rw [rstripL_append]
    exact h
  exact (spacesOK_append_parts h2).1

theorem noAdj_lstrip {l : List Char} (h : noAdj l = true) :
    noAdj (lstripL l) = true := by
  have h2 : noAdj (l.takeWhile isPySpace ++ l.dropWhile isPySpace) = true := by
    rw [List.takeWhile_append_dropWhile]
    exact h
  exact noAdj_append_right _ h2

theorem noAdj_rstrip {u : List Char} (h : noAdj u = true) :
    noAdj (rstripL u) = true := by
  have h2 : noAdj (rstripL u ++ (u.reverse.takeWhile isPySpace).reverse) = true := by
    rw [rstripL_append]
    exact h
  exact noAdj_append_left _ h2

theorem headOK_lstrip : ∀ l : List Char, headOK (lstripL l) = true
  | [] => rfl
  | c :: t => by
    by_cases h : isPySpace c = true
    · have ih := headOK_lstrip t
      unfold lstripL at ih ⊢
      simpa [List.dropWhile_cons, h] using ih
    · simp [lstripL, List.dropWhile_cons, h, headOK]

theorem lstripL_of_headOK {l : List Char} (h : headOK l = true) : lstripL l = l := by
  cases l with
  | nil => rfl
  | cons c t =>
    have hc : isPySpace c = false := by simpa [headOK] using h
    simp [lstripL, List.dropWhile_cons, hc]

theorem headOK_rstrip {u : List Char} (h : headOK u = true) :
    headOK (rstripL u) = true := by
  cases hr : rstripL u with
  | nil => rfl
  | cons c t =>
    have hdec := rstripL_append u
    rw [hr] at hdec
    rw [← hdec, List.cons_append] at h
    simpa [headOK] using h

theorem dropWhile_idem (p : Char → Bool) :
    ∀ l : List Char, List.dropWhile p (List.dropWhile p l) = List.dropWhile p l
  | [] => rfl
  | c :: t => by
    by_cases h : p c = true
    · simp [List.dropWhile_cons, h, dropWhile_idem p t]
    · simp [List.dropWhile_cons, h]

theorem rstripL_idem (u : List Char) : rstripL (rstripL u) = rstripL u := by
  unfold rstripL lstripL
  rw [List.reverse_reverse, dropWhile_idem]

theorem pyClean_idem_list (l : List Char) :
    pyStripL (collapse (pyStripL (collapse l))) = pyStripL (collapse l) := by
  have hsp : spacesOK (collapse l) = true := spacesOK_collapse l
  have hna : noAdj (collapse l) = true := noAdj_collapse l
  have hsp' : spacesOK (pyStripL (collapse l)) = true := spacesOK_rstrip (spacesOK_lstrip hsp)
  have hna' : noAdj (pyStripL (collapse l)) = true := noAdj_rstrip (noAdj_lstrip hna)
  rw [collapse_eq_self _ hsp' hna']
  show pyStripL (rstripL (lstripL (collapse l))) = pyStripL (collapse l)
  unfold pyStripL
  rw [lstripL_of_headOK (headOK_rstrip (headOK_lstrip (collapse l)))]
  exact rstripL_idem _

/-- C9: `clean_text` is idempotent: cleaning a cleaned string returns it
unchanged, so an already-clean string is a fixed point. -/
theorem c9_clean_text_idempotent (s : String) :
    clean_text (clean_text s) = clean_text s := by
  unfold clean_text
  exact congrArg String.mk (pyClean_idem_list s.data)
